import Mathlib

/-!
Verification of the decision orchestration and extraction pipeline of
agent/claude_code_agent/shared/claude_core.py: cache key computation,
subprocess invocation envelope handling, retry/backoff/timeout control,
layered decision extraction from free text, and domain validation.

Python values that can appear in a parsed JSON document are embedded as the
inductive type `Json`.  Numbers are modelled as rationals (Python parses JSON
numbers as int/float; the validator only performs order comparisons against
0 and 1, for which the exact rational value of the decimal literal is
faithful).  Python dicts obtained from JSON objects are association lists in
which a later binding for a key shadows an earlier one, exactly as repeated
keys behave in `json.loads`.
-/

set_option maxHeartbeats 1000000

inductive Json where
  | null
  | bool (b : Bool)
  | num (q : Rat)
  | str (s : String)
  | arr (elems : List Json)
  | obj (fields : List (String × Json))

/-- A Python dict as produced by `json.loads` on an object literal. -/
abbrev Dict := List (String × Json)

/-- Python dict lookup: with duplicate keys in the source JSON text the last
binding wins, so we search the reversed association list. -/
def pyGet (d : Dict) (k : String) : Option Json :=
  (d.reverse.find? (fun p => p.1 == k)).map (fun p => p.2)

/-- Python `dict.get(k, default)`. -/
def pyGetD (d : Dict) (k : String) (v : Json) : Json :=
  (pyGet d k).getD v

/-- Python truthiness of a JSON-decoded value (`if response.get(...)`). -/
def Json.truthy : Json → Bool
  | .null => false
  | .bool b => b
  | .num q => decide (q ≠ 0)
  | .str s => decide (s ≠ "")
  | .arr l => !l.isEmpty
  | .obj l => !l.isEmpty

/-- Truthiness of `dict.get(k)`: a missing key gives `None`, which is falsy. -/
def truthyOpt : Option Json → Bool
  | none => false
  | some v => v.truthy

/-! ## A model of `json.loads`

Recursive-descent parser over the character list of the input, mirroring the
strict mode of Python's `json` module: the four JSON whitespace characters,
no raw control characters inside strings, the standard escape set plus
`\uXXXX`, and strict number syntax.  (The CPython extensions `NaN`,
`Infinity` and `-Infinity` are not modelled: they denote float specials with
no rational counterpart.)  Recursion is fueled; `jsonLoads` supplies fuel
strictly larger than the input length, which suffices because every
recursive call consumes at least one character. -/

/-- JSON whitespace skipped by `json.loads`. -/
def jsonWsChar (c : Char) : Bool :=
  c = ' ' || c = '\t' || c = '\n' || c = '\r'

def dropWs : List Char → List Char
  | [] => []
  | c :: cs => if jsonWsChar c then dropWs cs else c :: cs

/-- Match a literal character sequence, returning the remainder. -/
def dropLit : List Char → List Char → Option (List Char)
  | [], cs => some cs
  | _ :: _, [] => none
  | l :: ls, c :: cs => if c = l then dropLit ls cs else none

def hexVal (c : Char) : Option Nat :=
  if '0' ≤ c ∧ c ≤ '9' then some (c.toNat - 48)
  else if 'a' ≤ c ∧ c ≤ 'f' then some (c.toNat - 87)
  else if 'A' ≤ c ∧ c ≤ 'F' then some (c.toNat - 55)
  else none

def escChar (c : Char) : Option Char :=
  if c = '"' then some '"'
  else if c = '\\' then some '\\'
  else if c = '/' then some '/'
  else if c = 'b' then some (Char.ofNat 8)
  else if c = 'f' then some (Char.ofNat 12)
  else if c = 'n' then some '\n'
  else if c = 'r' then some '\r'
  else if c = 't' then some '\t'
  else none

/-- String body parser (the opening quote is already consumed).  `\uXXXX`
escapes are mapped through `Char.ofNat`; code points that are not valid
`Char`s (lone surrogates) collapse to the default character. -/
def parseStr : Nat → List Char → List Char → Option (String × List Char)
  | 0, _, _ => none
  | _ + 1, _, [] => none
  | fuel + 1, acc, c :: r =>
    if c = '"' then some (⟨acc.reverse⟩, r)
    else if c = '\\' then
      match r with
      | [] => none
      | e :: r2 =>
        if e = 'u' then
          match r2 with
          | h1 :: h2 :: h3 :: h4 :: r3 =>
            match hexVal h1, hexVal h2, hexVal h3, hexVal h4 with
            | some a, some b, some c2, some d2 =>
              parseStr fuel (Char.ofNat (((a * 16 + b) * 16 + c2) * 16 + d2) :: acc) r3
            | _, _, _, _ => none
          | _ => none
        else
          match escChar e with
          | some ch => parseStr fuel (ch :: acc) r2
          | none => none
    else if c.toNat < 32 then none
    else parseStr fuel (c :: acc) r

def isDig (c : Char) : Bool := '0' ≤ c && c ≤ '9'

def takeDigits : List Char → (List Char × List Char)
  | [] => ([], [])
  | c :: cs =>
    if isDig c then
      let p := takeDigits cs
      (c :: p.1, p.2)
    else ([], c :: cs)

def digitsToNat (ds : List Char) : Nat :=
  ds.foldl (fun n c => n * 10 + (c.toNat - 48)) 0

/-- Integer part of a JSON number: `0`, or a nonzero digit followed by
digits (leading zeros are rejected, as in Python's json). -/
def parseIntPart : List Char → Option (List Char × List Char)
  | [] => none
  | c :: cs =>
    if c = '0' then some (['0'], cs)
    else if isDig c then
      let p := takeDigits cs
      some (c :: p.1, p.2)
    else none

/-- Fractional part `.digits`, if present. -/
def parseFracPart : List Char → (List Char × List Char)
  | '.' :: c :: cs =>
    if isDig c then
      let p := takeDigits cs
      (c :: p.1, p.2)
    else ([], '.' :: c :: cs)
  | cs => ([], cs)

/-- Exponent part `[eE][+-]?digits`, if present; returns the signed exponent. -/
def parseExpPart : List Char → (Int × List Char)
  | e :: rest =>
    if e = 'e' ∨ e = 'E' then
      match rest with
      | '+' :: c :: cs =>
        if isDig c then
          let p := takeDigits cs
          ((digitsToNat (c :: p.1) : Int), p.2)
        else (0, e :: rest)
      | '-' :: c :: cs =>
        if isDig c then
          let p := takeDigits cs
          (-(digitsToNat (c :: p.1) : Int), p.2)
        else (0, e :: rest)
      | c :: cs =>
        if isDig c then
          let p := takeDigits cs
          ((digitsToNat (c :: p.1) : Int), p.2)
        else (0, e :: rest)
      | [] => (0, e :: rest)
    else (0, e :: rest)
  | [] => (0, [])

/-- Kind of the fractional-part marker: `.521` requires at least one digit. -/
def parseNumber (cs : List Char) : Option (Json × List Char) :=
  let (neg, cs1) :=
    match cs with
    | '-' :: r => (true, r)
    | _ => (false, cs)
  match parseIntPart cs1 with
  | none => none
  | some (intDs, r1) =>
    let (fracDs, r2) := parseFracPart r1
    let (expI, r3) := parseExpPart r2
    let scale := fracDs.length
    let mantNat : Nat := digitsToNat intDs * 10 ^ scale + digitsToNat fracDs
    let mant : Int := if neg then -(mantNat : Int) else (mantNat : Int)
    let q : Rat :=
      if 0 ≤ expI then mkRat (mant * (10 : Int) ^ expI.toNat) (10 ^ scale)
      else mkRat mant (10 ^ scale * 10 ^ (-expI).toNat)
    some (.num q, r3)

mutual

/-- Top-level JSON value parser.  Fuel strictly decreases on every recursive
call and every unit of fuel spent consumes at least one input character. -/
def parseVal : Nat → List Char → Option (Json × List Char)
  | 0, _ => none
  | fuel + 1, cs =>
    match dropWs cs with
    | [] => none
    | '{' :: r =>
      match dropWs r with
      | '}' :: r2 => some (.obj [], r2)
      | _ => parseObjMems fuel r []
    | '[' :: r =>
      match dropWs r with
      | ']' :: r2 => some (.arr [], r2)
      | _ => parseArrElems fuel r []
    | '"' :: r =>
      match parseStr (r.length + 1) [] r with
      | some (s, r2) => some (.str s, r2)
      | none => none
    | 't' :: r => (dropLit ['r', 'u', 'e'] r).map (fun r2 => (.bool true, r2))
    | 'f' :: r => (dropLit ['a', 'l', 's', 'e'] r).map (fun r2 => (.bool false, r2))
    | 'n' :: r => (dropLit ['u', 'l', 'l'] r).map (fun r2 => (.null, r2))
    | c :: r => parseNumber (c :: r)

/-- Object members: `"key": value`, comma-separated, closed by `}`. -/
def parseObjMems : Nat → List Char → List (String × Json) → Option (Json × List Char)
  | 0, _, _ => none
  | fuel + 1, cs, acc =>
    match dropWs cs with
    | '"' :: r =>
      match parseStr (r.length + 1) [] r with
      | none => none
      | some (k, r1) =>
        match dropWs r1 with
        | ':' :: r2 =>
          match parseVal fuel r2 with
          | none => none
          | some (v, r3) =>
            match dropWs r3 with
            | ',' :: r4 => parseObjMems fuel r4 (acc ++ [(k, v)])
            | '}' :: r4 => some (.obj (acc ++ [(k, v)]), r4)
            | _ => none
        | _ => none
    | _ => none

/-- Array elements, comma-separated, closed by `]`. -/
def parseArrElems : Nat → List Char → List Json → Option (Json × List Char)
  | 0, _, _ => none
  | fuel + 1, cs, acc =>
    match parseVal fuel cs with
    | none => none
    | some (v, r1) =>
      match dropWs r1 with
      | ',' :: r2 => parseArrElems fuel r2 (acc ++ [v])
      | ']' :: r2 => some (.arr (acc ++ [v]), r2)
      | _ => none

end

/-- Model of `json.loads`: parse one value and require that only whitespace
remains; `none` models `json.JSONDecodeError`. -/
def jsonLoads (cs : List Char) : Option Json :=
  match parseVal (cs.length + 2) cs with
  | some (v, rest) => if dropWs rest = [] then some v else none
  | none => none

/-! ## Cache key (`_get_cache_key`, lines 305-308)

`hashlib.sha256(f"{system_prompt}\n{prompt}".encode()).hexdigest()`.  The
SHA-256 digest is an external library primitive; it is abstracted as a
`digest` parameter applied to the exact preimage string the source builds. -/

/-- The string actually digested: `f"{system_prompt}\n{prompt}"`. -/
def cacheKeyPreimage (prompt systemPrompt : String) : String :=
  systemPrompt ++ "\n" ++ prompt

def _get_cache_key (digest : String → String) (prompt systemPrompt : String) : String :=
  digest (cacheKeyPreimage prompt systemPrompt)

/-! ## Decision validation (`_validate_decision`, lines 509-548)

The allowed-symbol universe (`all_nasdaq_100_symbols`, imported by the source
from `prompts.agent_prompt`) is passed as the explicit parameter `allowed`.
Python subtleties modelled exactly: `bool` is a subclass of `int`, so
`isinstance(True, (int, float))` holds and `True > 0`; comparing a
non-numeric value with `0.0 <= c <= 1.0` raises `TypeError`, which the
source never catches — modelled as `Except.error ()`. -/

def requiredFields : List String :=
  ["action", "symbol", "amount", "confidence", "reasoning"]

def requiredPresent (d : Dict) : Bool :=
  requiredFields.all (fun k => (pyGet d k).isSome)

/-- Python `v == "s"` where `v` came from JSON: equal strings only. -/
def jsonEqStr (v : Json) (s : String) : Bool :=
  match v with
  | .str t => t == s
  | _ => false

/-- Python `v in l` for a list of strings: `==` against each element. -/
def inStrList (v : Json) (l : List String) : Bool :=
  match v with
  | .str t => l.any (fun x => x == t)
  | _ => false

/-- `isinstance(a, (int, float)) and a > 0` (a Python `bool` is an `int`). -/
def pyAmountPos : Json → Bool
  | .num q => decide (0 < q)
  | .bool b => b
  | _ => false

/-- `0.0 <= c <= 1.0`; a non-numeric `c` raises `TypeError`. -/
def pyConfRange : Json → Except Unit Bool
  | .num q => .ok (decide (0 ≤ q) && decide (q ≤ 1))
  | .bool _ => .ok true
  | _ => .error ()

def actionVal (d : Dict) : Json := pyGetD d "action" Json.null

def _validate_decision (allowed : List String) (d : Dict) : Except Unit Bool :=
  if requiredPresent d then
    if inStrList (actionVal d) ["buy", "sell", "hold"] then
      if jsonEqStr (actionVal d) "hold" then .ok true
      else if inStrList (pyGetD d "symbol" Json.null) allowed then
        if pyAmountPos (pyGetD d "amount" Json.null) then
          pyConfRange (pyGetD d "confidence" Json.null)
        else .ok false
      else .ok false
    else .ok false
  else .ok false

/-! ## Decision extraction (`_extract_decision`, lines 453-507)

Three strategies in fixed order.  Strategy 1 models
`re.search(r'<DECISION>\s*(\{.*?\})\s*</DECISION>', text, re.DOTALL)`:
the leftmost starting position wins; after the literal open tag, greedy
`\s*` followed by the mandatory `{` is equivalent to skipping all whitespace;
the lazy `.*?` ends at the first `}` whose suffix matches `\s*</DECISION>`.
Strategy 2 is the same shape for fenced ```json blocks.  Strategy 3 models
`re.findall(r'\{[^{}]*"action"[^{}]*\}', text)`: a match starts at a `{`
whose next brace character is a `}` with `"action"` contained in the
brace-free interior; matches are non-overlapping, scanned left to right.
`\s` is modelled by its ASCII members (space, tab, newline, carriage
return, vertical tab, form feed). -/

def pySpaceChar (c : Char) : Bool :=
  c = ' ' || c = '\t' || c = '\n' || c = '\r' || c = Char.ofNat 11 || c = Char.ofNat 12

def dropPySpaces : List Char → List Char
  | [] => []
  | c :: cs => if pySpaceChar c then dropPySpaces cs else c :: cs

/-- Does `\s*` followed by the literal `close` match at this point? -/
def closeFollows (close : List Char) (cs : List Char) : Bool :=
  (dropLit close (dropPySpaces cs)).isSome

/-- Lazy `.*?\}` before `\s*close`: the body ends at the first `}` whose
suffix matches; the body itself may contain any characters. -/
def lazyBody (close : List Char) : List Char → List Char → Option (List Char)
  | _, [] => none
  | acc, c :: rest =>
    if c = '}' && closeFollows close rest then some acc.reverse
    else lazyBody close (c :: acc) rest

/-- Try a full tagged/fenced block match starting exactly here; on success
return the captured group `{...}`. -/
def tryBlockAt (openLit close : List Char) (cs : List Char) : Option (List Char) :=
  match dropLit openLit cs with
  | none => none
  | some r1 =>
    match dropPySpaces r1 with
    | '{' :: r2 =>
      match lazyBody close [] r2 with
      | some body => some ('{' :: (body ++ ['}']))
      | none => none
    | _ => none

/-- `re.search`: leftmost starting position at which the pattern matches. -/
def findBlock (openLit close : List Char) : List Char → Option (List Char)
  | [] => none
  | c :: rest =>
    match tryBlockAt openLit close (c :: rest) with
    | some g => some g
    | none => findBlock openLit close rest

/-- Scan to the first brace character: `some (interior, rest)` if it is `}`. -/
def interiorTo : List Char → Option (List Char × List Char)
  | [] => none
  | c :: rest =>
    if c = '}' then some ([], rest)
    else if c = '{' then none
    else (interiorTo rest).map (fun p => (c :: p.1, p.2))

/-- Substring containment over character lists. -/
def containsSub (pat : List Char) : List Char → Bool
  | [] => pat.isEmpty
  | c :: rest => (dropLit pat (c :: rest)).isSome || containsSub pat rest

def actionPat : List Char := "\"action\"".data

/-- `re.findall` for the loose pattern, fueled: a failed attempt advances by
one character, a successful match resumes after its closing brace. -/
def looseMatchesF : Nat → List Char → List (List Char)
  | 0, _ => []
  | fuel + 1, cs =>
    match cs with
    | [] => []
    | c :: rest =>
      if c = '{' then
        match interiorTo rest with
        | some (interior, rest2) =>
          if containsSub actionPat interior then
            ('{' :: (interior ++ ['}'])) :: looseMatchesF fuel rest2
          else looseMatchesF fuel rest
        | none => looseMatchesF fuel rest
      else looseMatchesF fuel rest

def looseMatches (cs : List Char) : List (List Char) :=
  looseMatchesF (cs.length + 1) cs

/-- One candidate group: `json.loads` it (a decode error is swallowed and the
pipeline falls through), then validate; a validation `TypeError` propagates.
Candidates always start with a brace, so a parse can only produce an object. -/
def tryCandidate (allowed : List String) (g : List Char) : Except Unit (Option Dict) :=
  match jsonLoads g with
  | none => .ok none
  | some (.obj fs) =>
    match _validate_decision allowed fs with
    | .error e => .error e
    | .ok true => .ok (some fs)
    | .ok false => .ok none
  | some _ => .ok none

def tagOpenL : List Char := "<DECISION>".data
def tagCloseL : List Char := "</DECISION>".data
def fenceOpenL : List Char := "```json".data
def fenceCloseL : List Char := "```".data

/-- Apply one search-based strategy: no regex match falls through. -/
def runStrategy (allowed : List String) (og : Option (List Char)) : Except Unit (Option Dict) :=
  match og with
  | none => .ok none
  | some g => tryCandidate allowed g

/-- Strategy 1: the `<DECISION>` tagged block. -/
def strategyTagged (allowed : List String) (text : String) : Except Unit (Option Dict) :=
  runStrategy allowed (findBlock tagOpenL tagCloseL text.data)

/-- Strategy 2: the fenced ```json code block. -/
def strategyFenced (allowed : List String) (text : String) : Except Unit (Option Dict) :=
  runStrategy allowed (findBlock fenceOpenL fenceCloseL text.data)

/-- Strategy 3: loose scan, first candidate that parses and validates wins. -/
def strategyLooseList (allowed : List String) : List (List Char) → Except Unit (Option Dict)
  | [] => .ok none
  | g :: gs =>
    match tryCandidate allowed g with
    | .error e => .error e
    | .ok (some d) => .ok (some d)
    | .ok none => strategyLooseList allowed gs

def strategyLoose (allowed : List String) (text : String) : Except Unit (Option Dict) :=
  strategyLooseList allowed (looseMatches text.data)

/-- The fallback decision of `_extract_decision` (lines 501-507). -/
def defaultHoldDecision : Dict :=
  [("action", .str "hold"), ("symbol", .str ""), ("amount", .num 0),
   ("confidence", .num 0),
   ("reasoning", .str "Could not parse decision from Claude Code response")]

def _extract_decision (allowed : List String) (text : String) : Except Unit Dict :=
  match strategyTagged allowed text with
  | .error e => .error e
  | .ok (some d) => .ok d
  | .ok none =>
    match strategyFenced allowed text with
    | .error e => .error e
    | .ok (some d) => .ok d
    | .ok none =>
      match strategyLoose allowed text with
      | .error e => .error e
      | .ok (some d) => .ok d
      | .ok none => .ok defaultHoldDecision

/-! ## Invocation manager (`_invoke_claude_cli`, lines 310-402)

The subprocess itself is the environment: per attempt it either exceeds the
timeout or completes with an exit status and a stdout text.  The cache is a
map from cache key to the stored JSON value (the content of the cache file).
What the source does with the completed result is modelled exactly:
non-zero exit → `ClaudeCodeError`; `json.loads` failure → re-raised as
`ValueError`; a decoded non-dict → uncaught `AttributeError` at
`response.get('is_error')`; a truthy `is_error` → `ClaudeCodeError`;
then the cost log line `f"...{cost:.4f}..."` formats
`response.get('total_cost_usd', 0)`, raising `ValueError` for a string and
`TypeError` for other non-numeric values; finally the response is cached
(when enabled) and returned. -/

inductive PyErr where
  | timeoutError
  | claudeCodeError
  | valueError
  | runtimeError
  | otherError
deriving DecidableEq

/-- One subprocess execution as decided by the environment. -/
inductive SubprocResult where
  | timeout
  | completed (returncode : Int) (stdout : String)

abbrev Cache := String → Option Json

def cacheInsert (c : Cache) (k : String) (v : Json) : Cache :=
  fun x => if x = k then some v else c x

/-- Float formatting acceptance of `f"{v:.4f}"` / `f"{v:.2%}"`: numbers and
bools format; `str.__format__` raises `ValueError` on the float code; other
types fall back to `object.__format__`, which raises `TypeError`. -/
def pyFormatNum : Json → Except PyErr Unit
  | .num _ => .ok ()
  | .bool _ => .ok ()
  | .str _ => .error .valueError
  | _ => .error .otherError

structure InvokeOut where
  res : Except PyErr Json
  spawned : Bool
  cache : Cache

def _invoke_claude_cli (digest : String → String) (useCache : Bool) (cache : Cache)
    (prompt systemPrompt : String) (sub : SubprocResult) : InvokeOut :=
  match useCache, cache (_get_cache_key digest prompt systemPrompt) with
  | true, some v => ⟨.ok v, false, cache⟩
  | _, _ =>
    match sub with
    | .timeout => ⟨.error .timeoutError, true, cache⟩
    | .completed rc out =>
      if rc ≠ 0 then ⟨.error .claudeCodeError, true, cache⟩
      else
        match jsonLoads out.data with
        | none => ⟨.error .valueError, true, cache⟩
        | some (.obj fs) =>
          if truthyOpt (pyGet fs "is_error") then ⟨.error .claudeCodeError, true, cache⟩
          else
            match pyFormatNum (pyGetD fs "total_cost_usd" (.num 0)) with
            | .error e => ⟨.error e, true, cache⟩
            | .ok _ =>
              ⟨.ok (.obj fs), true,
               if useCache then
                 cacheInsert cache (_get_cache_key digest prompt systemPrompt) (.obj fs)
               else cache⟩
        | some _ => ⟨.error .otherError, true, cache⟩

/-! ## Retry controller (`_ainvoke_claude_with_retry`, lines 404-451)

`for attempt in range(1, max_retries + 1)` with the source's handlers:
`TimeoutError` → on the last attempt return the synthetic timeout hold
envelope, otherwise sleep and halve the timeout with a floor of 120;
`ClaudeCodeError` → on the last attempt raise `RuntimeError`, otherwise
sleep with the timeout unchanged; `ValueError` → return the synthetic
json-decode hold envelope immediately.  Other exceptions propagate.  If the
loop exits without returning (`max_retries = 0`) Python returns `None`,
modelled as `Json.null`.  `spawned` counts actual subprocess executions and
`timeouts` records the timeout passed to each of them (ghost
instrumentation used to state the claims). -/

def timeoutResultText : String :=
  "<DECISION>\x7b\"action\": \"hold\", \"symbol\": \"\", \"amount\": 0, \"confidence\": 0.0, \"reasoning\": \"Analysis timeout after all retries\"\x7d</DECISION>"

/-- The synthetic envelope returned after timeout exhaustion (lines 427-431). -/
def timeoutHoldEnvelope : Json :=
  .obj [("result", .str timeoutResultText), ("is_error", .bool false),
        ("error_type", .str "timeout")]

def jsonDecodeResultText : String :=
  "<DECISION>\x7b\"action\": \"hold\", \"symbol\": \"\", \"amount\": 0, \"confidence\": 0.0, \"reasoning\": \"Invalid response format\"\x7d</DECISION>"

/-- The synthetic envelope returned on a JSON decode error (lines 447-451). -/
def jsonDecodeHoldEnvelope : Json :=
  .obj [("result", .str jsonDecodeResultText), ("is_error", .bool true),
        ("error_type", .str "json_decode")]

structure RetryOut where
  res : Except PyErr Json
  spawned : Nat
  timeouts : List Nat
  cache : Cache

/-- The loop body, fueled by the number of remaining iterations; `attempt`
is the Python loop variable, so `fuel = maxRetries - attempt + 1` at every
call and the guard `attempt = maxRetries` is the source's own test. -/
def retryGo (digest : String → String) (useCache : Bool) (sys usr : String)
    (maxRetries : Nat) (oracle : Nat → SubprocResult) :
    Nat → Nat → Nat → Cache → Nat → List Nat → RetryOut
  | 0, _, _, cache, n, ts => ⟨.ok .null, n, ts, cache⟩
  | fuel + 1, attempt, ct, cache, n, ts =>
    let st := _invoke_claude_cli digest useCache cache usr sys (oracle attempt)
    let n' := n + (if st.spawned then 1 else 0)
    let ts' := ts ++ (if st.spawned then [ct] else [])
    match st.res with
    | .ok resp => ⟨.ok resp, n', ts', st.cache⟩
    | .error .timeoutError =>
      if attempt = maxRetries then ⟨.ok timeoutHoldEnvelope, n', ts', st.cache⟩
      else retryGo digest useCache sys usr maxRetries oracle fuel (attempt + 1)
        (max 120 (ct / 2)) st.cache n' ts'
    | .error .claudeCodeError =>
      if attempt = maxRetries then ⟨.error .runtimeError, n', ts', st.cache⟩
      else retryGo digest useCache sys usr maxRetries oracle fuel (attempt + 1)
        ct st.cache n' ts'
    | .error .valueError => ⟨.ok jsonDecodeHoldEnvelope, n', ts', st.cache⟩
    | .error e => ⟨.error e, n', ts', st.cache⟩

def _ainvoke_claude_with_retry (digest : String → String) (useCache : Bool)
    (cache : Cache) (sys usr : String) (maxRetries cliTimeout : Nat)
    (oracle : Nat → SubprocResult) : RetryOut :=
  retryGo digest useCache sys usr maxRetries oracle maxRetries 1 cliTimeout cache 0 []

/-! ## Trading session (`run_trading_session`, lines 550-688)

Context gathering uses external price/position tools; the model keeps only
whether it succeeded (`ctxOk`): on failure the source logs and returns with
no decision.  Then the retry controller runs; an exception it raises is
re-raised by the session's `except` (line 684).  On a returned envelope the
source reads `response.get('result', '')` (an `AttributeError` if the
envelope is not a dict, a `TypeError` downstream in `re.search` if the value
is not a string), extracts the decision, and prints it — where
`f"{decision.get('confidence', 0):.2%}"` raises on a non-numeric confidence
(reachable only for a validated `hold`).  Trade execution is a TODO in the
source; the decision is the session's outcome. -/

def getResultText : Json → Except PyErr String
  | .obj fs =>
    match pyGet fs "result" with
    | none => .ok ""
    | some (.str s) => .ok s
    | some _ => .error .otherError
  | _ => .error .otherError

inductive SessionResult where
  | aborted
  | completed (d : Dict)
  | fatal (e : PyErr)

/-- Lines 642-684: what the session does with the retry controller's result
(an exception raised by it is re-raised by the session's handler). -/
def sessionHandle (allowed : List String) (res : Except PyErr Json) : SessionResult :=
  match res with
  | .error e => .fatal e
  | .ok resp =>
    match getResultText resp with
    | .error e => .fatal e
    | .ok txt =>
      match _extract_decision allowed txt with
      | .error _ => .fatal .otherError
      | .ok d =>
        match pyFormatNum (pyGetD d "confidence" (.num 0)) with
        | .error e => .fatal e
        | .ok _ => .completed d

def run_trading_session (digest : String → String) (allowed : List String)
    (useCache : Bool) (cache : Cache) (sys usr : String)
    (maxRetries cliTimeout : Nat) (oracle : Nat → SubprocResult)
    (ctxOk : Bool) : SessionResult :=
  if !ctxOk then .aborted
  else
    sessionHandle allowed
      (_ainvoke_claude_with_retry digest useCache cache sys usr maxRetries cliTimeout oracle).res

/-! ## Derived predicates and concrete texts used by the claims -/

/-- A subprocess attempt that the source turns into `ClaudeCodeError`:
non-zero exit status (line 369), or an envelope that reports its own error
via a truthy `is_error` (line 379). -/
def processErrorAttempt : SubprocResult → Bool
  | .timeout => false
  | .completed rc out =>
    rc != 0 ||
      (match jsonLoads out.data with
       | some (.obj fs) => truthyOpt (pyGet fs "is_error")
       | _ => false)

/-- The claim's "amount is a positive number", under Python's numeric tower:
`bool` is a subclass of `int` (`isinstance(True, (int, float))` holds,
`True` compares as `1`). -/
def isPositiveNumber (v : Json) : Prop :=
  (∃ q : Rat, v = .num q ∧ 0 < q) ∨ v = .bool true

/-- The claim's "confidence lies in [0.0, 1.0]"; a Python `bool` is `0` or
`1` and hence always in range. -/
def isInUnitInterval (v : Json) : Prop :=
  (∃ q : Rat, v = .num q ∧ 0 ≤ q ∧ q ≤ 1) ∨ (∃ b, v = .bool b)

/-- The condition of claim C7: all five fields present, a legal action, and
for buy/sell an allowed symbol, positive amount and in-range confidence. -/
def decisionWellFormed (allowed : List String) (d : Dict) : Prop :=
  requiredPresent d = true ∧
  (actionVal d = .str "buy" ∨ actionVal d = .str "sell" ∨ actionVal d = .str "hold") ∧
  (actionVal d = .str "hold" ∨
    (inStrList (pyGetD d "symbol" Json.null) allowed = true ∧
     isPositiveNumber (pyGetD d "amount" Json.null) ∧
     isInUnitInterval (pyGetD d "confidence" Json.null)))

/-- The decision embedded in `timeoutResultText`, as `json.loads` yields it. -/
def timeoutHoldDecision : Dict :=
  [("action", .str "hold"), ("symbol", .str ""), ("amount", .num 0),
   ("confidence", .num 0),
   ("reasoning", .str "Analysis timeout after all retries")]

/-- The decision embedded in `jsonDecodeResultText`. -/
def jsonDecodeHoldDecision : Dict :=
  [("action", .str "hold"), ("symbol", .str ""), ("amount", .num 0),
   ("confidence", .num 0), ("reasoning", .str "Invalid response format")]

/-- A response text whose only candidate is a buy decision with an allowed
symbol, a positive amount and a non-numeric confidence: validation reaches
`0.0 <= "high" <= 1.0` and raises `TypeError`. -/
def typeErrTaggedText : String :=
  "<DECISION>\x7b\"action\": \"buy\", \"symbol\": \"AAPL\", \"amount\": 1, \"confidence\": \"high\", \"reasoning\": \"r\"\x7d</DECISION>"

/-- A response text carrying two distinct valid decisions: a tagged buy and
a fenced sell. -/
def multiCandidateText : String :=
  "<DECISION>\x7b\"action\": \"buy\", \"symbol\": \"AAPL\", \"amount\": 5, \"confidence\": 0.9, \"reasoning\": \"t\"\x7d</DECISION>\n```json\n\x7b\"action\": \"sell\", \"symbol\": \"MSFT\", \"amount\": 3, \"confidence\": 0.8, \"reasoning\": \"f\"\x7d\n```"

def taggedBuyDecision : Dict :=
  [("action", .str "buy"), ("symbol", .str "AAPL"), ("amount", .num 5),
   ("confidence", .num (mkRat 9 10)), ("reasoning", .str "t")]

/-- A minimal tagged hold response used as a concrete witness input. -/
def simpleTaggedText : String :=
  "<DECISION>\x7b\"action\": \"hold\", \"symbol\": \"\", \"amount\": 0, \"confidence\": 0.5, \"reasoning\": \"w\"\x7d</DECISION>"

def simpleHoldDecision : Dict :=
  [("action", .str "hold"), ("symbol", .str ""), ("amount", .num 0),
   ("confidence", .num (mkRat 1 2)), ("reasoning", .str "w")]

/-- A buy decision whose symbol is outside any universe containing only
AAPL. -/
def zzzzBuyDecision : Dict :=
  [("action", .str "buy"), ("symbol", .str "ZZZZ"), ("amount", .num 3),
   ("confidence", .num (mkRat 1 2)), ("reasoning", .str "z")]

def emptyCache : Cache := fun _ => none

/-! ## Helper lemmas: validation -/

theorem jsonEqStr_iff (v : Json) (s : String) : jsonEqStr v s = true ↔ v = .str s := by
  cases v <;> simp [jsonEqStr]

theorem inStrList_action_iff (v : Json) :
    inStrList v ["buy", "sell", "hold"] = true ↔
      (v = .str "buy" ∨ v = .str "sell" ∨ v = .str "hold") := by
  cases v <;> simp [inStrList]
  case str t => constructor
                · rintro (h | h | h) <;> simp [h]
                · rintro (h | h | h) <;> simp [h]

theorem pyAmountPos_iff (v : Json) : pyAmountPos v = true ↔ isPositiveNumber v := by
  cases v <;> simp [pyAmountPos, isPositiveNumber]

theorem pyConfRange_iff (v : Json) : pyConfRange v = .ok true ↔ isInUnitInterval v := by
  cases v <;> simp [pyConfRange, isInUnitInterval]

theorem validate_iff (allowed : List String) (d : Dict) :
    _validate_decision allowed d = .ok true ↔ decisionWellFormed allowed d := by
  unfold _validate_decision decisionWellFormed
  by_cases h1 : requiredPresent d = true
  case neg => simp [h1]
  by_cases h2 : inStrList (actionVal d) ["buy", "sell", "hold"] = true
  case neg => simp [h1, h2, ← inStrList_action_iff]
  by_cases h3 : jsonEqStr (actionVal d) "hold" = true
  case pos =>
    have hh := (jsonEqStr_iff _ _).1 h3
    simp [h1, h2, h3]
    exact ⟨Or.inr (Or.inr hh), Or.inl hh⟩
  have hne : ¬ actionVal d = Json.str "hold" := fun he => h3 ((jsonEqStr_iff _ _).2 he)
  by_cases h4 : inStrList (pyGetD d "symbol" Json.null) allowed = true
  case neg => simp [h1, h2, h3, h4, hne, ← inStrList_action_iff]
  by_cases h5 : pyAmountPos (pyGetD d "amount" Json.null) = true
  case neg => simp [h1, h2, h3, h4, h5, hne, ← inStrList_action_iff, ← pyAmountPos_iff]
  have hdisj := (inStrList_action_iff (actionVal d)).1 h2
  simp [h1, h2, h3, h4, h5, hne, pyConfRange_iff, ← pyAmountPos_iff, hdisj]
  intro _
  rcases hdisj with ha | ha | ha
  · exact Or.inl ha
  · exact Or.inr ha
  · exact absurd ha hne

theorem validate_ok_shape (allowed : List String) (d : Dict)
    (h : _validate_decision allowed d = .ok true) :
    requiredPresent d = true ∧ inStrList (actionVal d) ["buy", "sell", "hold"] = true := by
  rcases (validate_iff allowed d).1 h with ⟨hp, hact, _⟩
  exact ⟨hp, (inStrList_action_iff _).2 hact⟩

/-! ## Helper lemmas: extraction -/

theorem tryCandidate_ok (allowed : List String) (g : List Char) (d : Dict)
    (h : tryCandidate allowed g = .ok (some d)) :
    _validate_decision allowed d = .ok true := by
  unfold tryCandidate at h
  cases hj : jsonLoads g with
  | none => rw [hj] at h; simp at h
  | some v =>
    rw [hj] at h
    cases v with
    | obj fs =>
      dsimp only at h
      cases hv : _validate_decision allowed fs with
      | error e => rw [hv] at h; simp at h
      | ok b =>
        cases b with
        | false => rw [hv] at h; simp at h
        | true =>
          rw [hv] at h
          simp at h
          rw [← h]
          exact hv
    | null => simp at h
    | bool b => simp at h
    | num q => simp at h
    | str s => simp at h
    | arr l => simp at h

theorem runStrategy_ok (allowed : List String) (og : Option (List Char)) (d : Dict)
    (h : runStrategy allowed og = .ok (some d)) :
    _validate_decision allowed d = .ok true := by
  cases og with
  | none => simp [runStrategy] at h
  | some g => exact tryCandidate_ok allowed g d h

theorem strategyLooseList_ok (allowed : List String) :
    ∀ gs d, strategyLooseList allowed gs = .ok (some d) →
      _validate_decision allowed d = .ok true := by
  intro gs
  induction gs with
  | nil => intro d h; simp [strategyLooseList] at h
  | cons g gs ih =>
    intro d h
    unfold strategyLooseList at h
    cases hc : tryCandidate allowed g with
    | error e => rw [hc] at h; simp at h
    | ok o =>
      cases o with
      | none => rw [hc] at h; exact ih d h
      | some d0 =>
        rw [hc] at h
        simp at h
        rw [← h]
        exact tryCandidate_ok allowed g d0 hc

theorem validate_defaultHold (allowed : List String) :
    _validate_decision allowed defaultHoldDecision = .ok true := rfl

theorem extract_ok_validates (allowed : List String) (text : String) (d : Dict)
    (h : _extract_decision allowed text = .ok d) :
    _validate_decision allowed d = .ok true := by
  unfold _extract_decision at h
  cases h1 : strategyTagged allowed text with
  | error e => rw [h1] at h; simp at h
  | ok o1 =>
    rw [h1] at h
    cases o1 with
    | some d1 => simp at h; rw [← h]; exact runStrategy_ok allowed _ d1 h1
    | none =>
      cases h2 : strategyFenced allowed text with
      | error e => rw [h2] at h; simp at h
      | ok o2 =>
        rw [h2] at h
        cases o2 with
        | some d2 => simp at h; rw [← h]; exact runStrategy_ok allowed _ d2 h2
        | none =>
          cases h3 : strategyLoose allowed text with
          | error e => rw [h3] at h; simp at h
          | ok o3 =>
            rw [h3] at h
            cases o3 with
            | some d3 =>
              simp at h
              rw [← h]
              exact strategyLooseList_ok allowed _ d3 h3
            | none =>
              simp at h
              rw [← h]
              exact validate_defaultHold allowed

theorem extract_timeout_text (allowed : List String) :
    _extract_decision allowed timeoutResultText = .ok timeoutHoldDecision := rfl

theorem extract_jsonDecode_text (allowed : List String) :
    _extract_decision allowed jsonDecodeResultText = .ok jsonDecodeHoldDecision := rfl

/-! ## Helper lemmas: retry controller -/

theorem retryGo_all_timeouts (digest : String → String) (sys usr : String)
    (mr : Nat) (oracle : Nat → SubprocResult) (hto : ∀ k, oracle k = .timeout) :
    ∀ fuel attempt ct cache n ts, attempt + fuel = mr + 1 → 1 ≤ fuel →
      (retryGo digest false sys usr mr oracle fuel attempt ct cache n ts).res
        = .ok timeoutHoldEnvelope := by
  intro fuel
  induction fuel with
  | zero => intro attempt ct cache n ts _ hf; omega
  | succ f ih =>
    intro attempt ct cache n ts hsum _
    by_cases hlast : attempt = mr
    · subst hlast
      simp [retryGo, _invoke_claude_cli, hto]
    · have hf : 1 ≤ f := by omega
      simp only [retryGo, _invoke_claude_cli, hto]
      simp only [if_neg hlast]
      exact ih (attempt + 1) _ _ _ _ (by omega) hf

/-- A `ClaudeCodeError` attempt gives exactly that error from the invocation
manager when caching is off. -/
theorem invoke_processError (digest : String → String) (cache : Cache)
    (prompt systemPrompt : String) (sub : SubprocResult)
    (h : processErrorAttempt sub = true) :
    _invoke_claude_cli digest false cache prompt systemPrompt sub
      = ⟨.error .claudeCodeError, true, cache⟩ := by
  cases sub with
  | timeout => simp [processErrorAttempt] at h
  | completed rc out =>
    unfold processErrorAttempt at h
    by_cases hrc : rc = 0
    · subst hrc
      simp at h
      unfold _invoke_claude_cli
      cases hj : jsonLoads out.data with
      | none => rw [hj] at h; simp at h
      | some v =>
        rw [hj] at h
        cases v with
        | obj fs =>
          dsimp only at h
          simp [hj, h]
        | null => simp at h
        | bool b => simp at h
        | num q => simp at h
        | str s => simp at h
        | arr l => simp at h
    · simp [_invoke_claude_cli, hrc]

theorem retryGo_all_procErrors (digest : String → String) (sys usr : String)
    (mr : Nat) (oracle : Nat → SubprocResult)
    (hpe : ∀ k, 1 ≤ k → k ≤ mr → processErrorAttempt (oracle k) = true) :
    ∀ fuel attempt ct cache n ts, attempt + fuel = mr + 1 → 1 ≤ attempt →
      attempt ≤ mr →
      (retryGo digest false sys usr mr oracle fuel attempt ct cache n ts).res
        = .error .runtimeError := by
  intro fuel
  induction fuel with
  | zero => intro attempt ct cache n ts hsum h1 h2; omega
  | succ f ih =>
    intro attempt ct cache n ts hsum h1 h2
    have hk : processErrorAttempt (oracle attempt) = true := hpe attempt h1 h2
    by_cases hlast : attempt = mr
    · subst hlast
      simp [retryGo, invoke_processError digest _ _ _ _ hk]
    · simp only [retryGo, invoke_processError digest _ _ _ _ hk]
      simp only [if_neg hlast]
      exact ih (attempt + 1) _ _ _ _ (by omega) (by omega) (by omega)

theorem retryGo_malformed (digest : String → String) (sys usr : String)
    (mr : Nat) (oracle : Nat → SubprocResult) (k : Nat) (s : String)
    (hpre : ∀ j, 1 ≤ j → j < k → oracle j = .timeout)
    (hork : oracle k = .completed 0 s) (hbad : jsonLoads s.data = none) :
    ∀ fuel attempt ct cache n ts, attempt + fuel = mr + 1 → 1 ≤ attempt →
      attempt ≤ k → k ≤ mr →
      (retryGo digest false sys usr mr oracle fuel attempt ct cache n ts).res
          = .ok jsonDecodeHoldEnvelope
        ∧ (retryGo digest false sys usr mr oracle fuel attempt ct cache n ts).spawned
          = n + (k - attempt + 1) := by
  intro fuel
  induction fuel with
  | zero => intro attempt ct cache n ts hsum h1 h2 h3; omega
  | succ f ih =>
    intro attempt ct cache n ts hsum h1 h2 h3
    by_cases hak : attempt = k
    · subst hak
      constructor
      · simp [retryGo, _invoke_claude_cli, hork, hbad]
      · simp [retryGo, _invoke_claude_cli, hork, hbad]
        try omega
    · have hj : oracle attempt = .timeout := hpre attempt h1 (by omega)
      have hnl : attempt ≠ mr := by omega
      constructor
      · simp [retryGo, _invoke_claude_cli, hj, hnl]
        exact (ih _ _ _ _ _ (by omega) (by omega) (by omega) h3).1
      · simp [retryGo, _invoke_claude_cli, hj, hnl]
        rw [(ih _ _ _ _ _ (by omega) (by omega) (by omega) h3).2]
        omega

theorem retryGo_counts (digest : String → String) (useCache : Bool) (sys usr : String)
    (mr : Nat) (oracle : Nat → SubprocResult) :
    ∀ fuel attempt ct cache n ts,
      (retryGo digest useCache sys usr mr oracle fuel attempt ct cache n ts).spawned ≤ n + fuel
      ∧ ((retryGo digest useCache sys usr mr oracle fuel attempt ct cache n ts).timeouts).length
          ≤ ts.length + fuel := by
  intro fuel
  induction fuel with
  | zero => intro attempt ct cache n ts; simp [retryGo]
  | succ f ih =>
    intro attempt ct cache n ts
    rcases hinv : _invoke_claude_cli digest useCache cache usr sys (oracle attempt) with ⟨res, sp, ca⟩
    rcases res with e | v
    case ok =>
      simp [retryGo, hinv]
      cases sp <;> simp
    case error =>
      cases e with
      | timeoutError =>
        by_cases hl : attempt = mr
        · subst hl
          simp [retryGo, hinv]
          cases sp <;> simp
        · simp [retryGo, hinv, hl]
          cases sp
          · simp
            exact ⟨le_trans (ih _ _ _ _ _).1 (by omega),
                   le_trans (ih _ _ _ _ _).2 (by omega)⟩
          · simp
            exact ⟨le_trans (ih _ _ _ _ _).1 (by omega),
                   le_trans (ih _ _ _ _ _).2 (by simp; omega)⟩
      | claudeCodeError =>
        by_cases hl : attempt = mr
        · subst hl
          simp [retryGo, hinv]
          cases sp <;> simp
        · simp [retryGo, hinv, hl]
          cases sp
          · simp
            exact ⟨le_trans (ih _ _ _ _ _).1 (by omega),
                   le_trans (ih _ _ _ _ _).2 (by omega)⟩
          · simp
            exact ⟨le_trans (ih _ _ _ _ _).1 (by omega),
                   le_trans (ih _ _ _ _ _).2 (by simp; omega)⟩
      | valueError =>
        simp [retryGo, hinv]
        cases sp <;> simp
      | runtimeError =>
        simp [retryGo, hinv]
        cases sp <;> simp
      | otherError =>
        simp [retryGo, hinv]
        cases sp <;> simp

theorem mem_or_eq_bound (ts : List Nat) (ct x : Nat) (h1 : ∀ t ∈ ts, x ≤ t) (h2 : x ≤ ct) :
    ∀ t : Nat, t ∈ ts ∨ t = ct → x ≤ t := by
  intro t ht
  rcases ht with ht | ht
  · exact h1 t ht
  · rw [ht]; exact h2

theorem mem_snoc_bound (ts : List Nat) (ct x : Nat) (h1 : ∀ t ∈ ts, x ≤ t) (h2 : x ≤ ct) :
    ∀ t ∈ ts ++ [ct], x ≤ t := by
  intro t ht
  rcases List.mem_append.1 ht with ht | ht
  · exact h1 t ht
  · rw [List.mem_singleton.1 ht]; exact h2

theorem pairwise_snoc_ge (ts : List Nat) (ct : Nat)
    (hpw : ts.Pairwise (fun a b => b ≤ a)) (hcur : ∀ t ∈ ts, ct ≤ t) :
    (ts ++ [ct]).Pairwise (fun a b => b ≤ a) := by
  refine List.pairwise_append.2 ⟨hpw, List.pairwise_singleton _ _, ?_⟩
  intro a ha b hb
  rw [List.mem_singleton.1 hb]
  exact hcur a ha

theorem retryGo_trace_mono (digest : String → String) (useCache : Bool) (sys usr : String)
    (mr : Nat) (oracle : Nat → SubprocResult) :
    ∀ fuel attempt ct cache n ts, 120 ≤ ct →
      (∀ t ∈ ts, 120 ≤ t) → (∀ t ∈ ts, ct ≤ t) →
      ts.Pairwise (fun a b => b ≤ a) →
      ((∀ t ∈ (retryGo digest useCache sys usr mr oracle fuel attempt ct cache n ts).timeouts,
          120 ≤ t)
        ∧ ((retryGo digest useCache sys usr mr oracle fuel attempt ct cache n ts).timeouts).Pairwise
            (fun a b => b ≤ a)) := by
  intro fuel
  induction fuel with
  | zero =>
    intro attempt ct cache n ts _ hlo _ hpw
    exact ⟨hlo, hpw⟩
  | succ f ih =>
    intro attempt ct cache n ts hct hlo hcur hpw
    have hqle : max 120 (ct / 2) ≤ ct := max_le hct (Nat.div_le_self ct 2)
    rcases hinv : _invoke_claude_cli digest useCache cache usr sys (oracle attempt) with ⟨res, sp, ca⟩
    rcases res with e | v
    case ok =>
      simp [retryGo, hinv]
      cases sp
      · simp
        exact ⟨hlo, hpw⟩
      · simp
        exact ⟨mem_or_eq_bound ts ct 120 hlo hct, pairwise_snoc_ge ts ct hpw hcur⟩
    case error =>
      cases e with
      | timeoutError =>
        by_cases hl : attempt = mr
        · subst hl
          simp [retryGo, hinv]
          cases sp
          · simp
            exact ⟨hlo, hpw⟩
          · simp
            exact ⟨mem_or_eq_bound ts ct 120 hlo hct, pairwise_snoc_ge ts ct hpw hcur⟩
        · simp [retryGo, hinv, hl]
          cases sp
          · simp
            exact ih _ _ _ _ _ (le_max_left _ _) hlo
              (fun t ht => le_trans hqle (hcur t ht)) hpw
          · simp
            exact ih _ _ _ _ _ (le_max_left _ _)
              (mem_snoc_bound ts ct 120 hlo hct)
              (mem_snoc_bound ts ct _ (fun t ht => le_trans hqle (hcur t ht)) hqle)
              (pairwise_snoc_ge ts ct hpw hcur)
      | claudeCodeError =>
        by_cases hl : attempt = mr
        · subst hl
          simp [retryGo, hinv]
          cases sp
          · simp
            exact ⟨hlo, hpw⟩
          · simp
            exact ⟨mem_or_eq_bound ts ct 120 hlo hct, pairwise_snoc_ge ts ct hpw hcur⟩
        · simp [retryGo, hinv, hl]
          cases sp
          · simp
            exact ih _ _ _ _ _ hct hlo hcur hpw
          · simp
            exact ih _ _ _ _ _ hct
              (mem_snoc_bound ts ct 120 hlo hct)
              (mem_snoc_bound ts ct ct hcur le_rfl)
              (pairwise_snoc_ge ts ct hpw hcur)
      | valueError =>
        simp [retryGo, hinv]
        cases sp
        · simp
          exact ⟨hlo, hpw⟩
        · simp
          exact ⟨mem_or_eq_bound ts ct 120 hlo hct, pairwise_snoc_ge ts ct hpw hcur⟩
      | runtimeError =>
        simp [retryGo, hinv]
        cases sp
        · simp
          exact ⟨hlo, hpw⟩
        · simp
          exact ⟨mem_or_eq_bound ts ct 120 hlo hct, pairwise_snoc_ge ts ct hpw hcur⟩
      | otherError =>
        simp [retryGo, hinv]
        cases sp
        · simp
          exact ⟨hlo, hpw⟩
        · simp
          exact ⟨mem_or_eq_bound ts ct 120 hlo hct, pairwise_snoc_ge ts ct hpw hcur⟩

/-! ## Helper lemmas: cache key -/

theorem split_at_marker (c : Char) :
    ∀ (l1 l2 r1 r2 : List Char), ¬ c ∈ l1 → ¬ c ∈ l2 →
      l1 ++ c :: r1 = l2 ++ c :: r2 → l1 = l2 ∧ r1 = r2 := by
  intro l1
  induction l1 with
  | nil =>
    intro l2 r1 r2 h1 h2 heq
    cases l2 with
    | nil =>
      simp at heq
      exact ⟨rfl, heq⟩
    | cons x l2 =>
      simp at heq
      rcases heq with ⟨hc, _⟩
      exact absurd (hc ▸ List.mem_cons_self x l2) h2
  | cons a l1 ih =>
    intro l2 r1 r2 h1 h2 heq
    cases l2 with
    | nil =>
      simp at heq
      rcases heq with ⟨ha, _⟩
      exact absurd (by rw [ha]; exact List.mem_cons_self c l1) h1
    | cons b l2 =>
      simp at heq
      rcases heq with ⟨hab, heq⟩
      have hr := ih l2 r1 r2 (fun h => h1 (List.mem_cons_of_mem a h))
        (fun h => h2 (List.mem_cons_of_mem b h)) heq
      exact ⟨by rw [hab, hr.1], hr.2⟩

theorem data_append (a b : String) : (a ++ b).data = a.data ++ b.data := rfl

theorem newline_data : "\n".data = ['\n'] := rfl

theorem string_of_data_eq (s1 s2 : String) (h : s1.data = s2.data) : s1 = s2 := by
  cases s1; cases s2; exact congrArg String.mk h

/-! ## Claims -/

/-- C7: `_validate_decision allowed d` returns `True` exactly when all five
required fields are present, the action is one of buy/sell/hold, and — when
the action is buy or sell — the symbol belongs to the injected allowed
universe, the amount is a positive number and the confidence lies in
[0.0, 1.0]; for hold no further checks are applied.  In particular every
buy/sell decision whose symbol is outside the allowed universe is
rejected. -/
theorem c7_validate_characterization :
    (∀ (allowed : List String) (d : Dict),
        _validate_decision allowed d = .ok true ↔ decisionWellFormed allowed d)
    ∧ (∀ (allowed : List String) (d : Dict),
        (actionVal d = .str "buy" ∨ actionVal d = .str "sell") →
        inStrList (pyGetD d "symbol" Json.null) allowed = false →
        _validate_decision allowed d ≠ .ok true) := by
  constructor
  · exact validate_iff
  · intro allowed d hact hsym h
    rcases (validate_iff allowed d).1 h with ⟨_, _, h3⟩
    rcases h3 with h3 | ⟨hs, _, _⟩
    · rcases hact with ha | ha <;> rw [ha] at h3 <;> simp at h3
    · rw [hsym] at hs
      simp at hs

/-- Witness for C7: a buy decision for the symbol ZZZZ is rejected when the
allowed universe is only AAPL. -/
theorem c7_witness : _validate_decision ["AAPL"] zzzzBuyDecision ≠ .ok true :=
  c7_validate_characterization.2 ["AAPL"] zzzzBuyDecision (Or.inl rfl) rfl

/-- C9 (amended): the cache key is a digest of the newline-joined prompts,
so when neither system prompt contains a newline, equal keys force either
equal prompt pairs or a digest collision on two distinct preimages.  (The
original claim fails: distinct pairs can share the digested preimage when
prompts contain newlines — see the counterexample.) -/
theorem c9_cache_key_injective_up_to_digest (digest : String → String)
    (p1 s1 p2 s2 : String)
    (h1 : ¬ '\n' ∈ s1.data) (h2 : ¬ '\n' ∈ s2.data)
    (hk : _get_cache_key digest p1 s1 = _get_cache_key digest p2 s2) :
    (p1 = p2 ∧ s1 = s2) ∨
      (cacheKeyPreimage p1 s1 ≠ cacheKeyPreimage p2 s2
        ∧ digest (cacheKeyPreimage p1 s1) = digest (cacheKeyPreimage p2 s2)) := by
  by_cases hpre : cacheKeyPreimage p1 s1 = cacheKeyPreimage p2 s2
  · left
    have hdata : s1.data ++ '\n' :: p1.data = s2.data ++ '\n' :: p2.data := by
      have hd := congrArg String.data hpre
      simp only [cacheKeyPreimage, data_append, List.append_assoc, newline_data,
        List.singleton_append] at hd
      exact hd
    have hsplit := split_at_marker '\n' s1.data s2.data p1.data p2.data h1 h2 hdata
    exact ⟨string_of_data_eq p1 p2 hsplit.2, string_of_data_eq s1 s2 hsplit.1⟩
  · exact Or.inr ⟨hpre, hk⟩

/-- Witness for C9: at newline-free prompts the amended statement causes the
left (injectivity) disjunct. -/
theorem c9_witness :
    ("a" = "a" ∧ "b" = "b") ∨
      (cacheKeyPreimage "a" "b" ≠ cacheKeyPreimage "a" "b"
        ∧ id (cacheKeyPreimage "a" "b") = id (cacheKeyPreimage "a" "b")) :=
  c9_cache_key_injective_up_to_digest id "a" "b" "a" "b" (by decide) (by decide) rfl

/-- Counterexample for C9 as stated: the pairs (prompt = "c", system =
"a\nb") and (prompt = "b\nc", system = "a") are distinct yet build the same
digested preimage "a\nb\nc", hence the same cache key under every digest —
a deterministic coincidence, not a hash collision. -/
theorem c9_counterexample :
    cacheKeyPreimage "c" "a\nb" = cacheKeyPreimage "b\nc" "a"
      ∧ _get_cache_key id "c" "a\nb" = _get_cache_key id "b\nc" "a"
      ∧ ("c", "a\nb") ≠ (("b\nc", "a") : String × String) := by
  refine ⟨by decide, by decide, by decide⟩

/-- C10: every dictionary returned by `_extract_decision` — from a strategy
or the default fallback — passes `_validate_decision`, has all five fields,
and has an action among buy/sell/hold. -/
theorem c10_extraction_always_validated :
    ∀ (allowed : List String) (text : String) (d : Dict),
      _extract_decision allowed text = .ok d →
      _validate_decision allowed d = .ok true ∧ requiredPresent d = true ∧
        inStrList (actionVal d) ["buy", "sell", "hold"] = true := by
  intro allowed text d h
  have hv := extract_ok_validates allowed text d h
  exact ⟨hv, (validate_ok_shape allowed d hv).1, (validate_ok_shape allowed d hv).2⟩

/-- Witness for C10 at a text with no extractable decision: the default hold
fallback validates. -/
theorem c10_witness :
    _validate_decision ["AAPL"] defaultHoldDecision = .ok true ∧
      requiredPresent defaultHoldDecision = true ∧
      inStrList (actionVal defaultHoldDecision) ["buy", "sell", "hold"] = true :=
  c10_extraction_always_validated ["AAPL"] "no structured decision here"
    defaultHoldDecision rfl

/-- C2: if the subprocess times out on every attempt up to maxRetries, the
retry controller returns (does not raise) the synthetic envelope: its result
text embeds the hold decision with amount 0 and confidence 0.0, it is tagged
`error_type = "timeout"` with `is_error = False`, and extraction on that
result text yields exactly the embedded hold decision, so the caller
proceeds as if the engine itself had returned this text. -/
theorem c2_timeout_exhaustion_returns_hold :
    ∀ (digest : String → String) (cache : Cache) (sys usr : String)
      (mr ct : Nat) (oracle : Nat → SubprocResult) (allowed : List String),
      1 ≤ mr → (∀ k, oracle k = .timeout) →
      ((_ainvoke_claude_with_retry digest false cache sys usr mr ct oracle).res
          = .ok timeoutHoldEnvelope
        ∧ timeoutHoldEnvelope = .obj [("result", .str timeoutResultText),
            ("is_error", .bool false), ("error_type", .str "timeout")]
        ∧ _extract_decision allowed timeoutResultText = .ok timeoutHoldDecision
        ∧ pyGet timeoutHoldDecision "action" = some (.str "hold")
        ∧ pyGet timeoutHoldDecision "amount" = some (.num 0)
        ∧ pyGet timeoutHoldDecision "confidence" = some (.num 0)) := by
  intro digest cache sys usr mr ct oracle allowed hmr hto
  refine ⟨?_, rfl, extract_timeout_text allowed, rfl, rfl, rfl⟩
  exact retryGo_all_timeouts digest sys usr mr oracle hto mr 1 ct cache 0 [] (by omega) hmr

/-- Witness for C2 at three timed-out attempts. -/
theorem c2_witness :
    (_ainvoke_claude_with_retry id false emptyCache "sys" "usr" 3 600
        (fun _ => .timeout)).res = .ok timeoutHoldEnvelope :=
  (c2_timeout_exhaustion_returns_hold id emptyCache "sys" "usr" 3 600 (fun _ => .timeout)
    ["AAPL"] (by omega) (fun _ => rfl)).1

/-- C3: if every attempt up to maxRetries fails with a process error
(non-zero exit status or an engine-reported error), the retry controller
raises `RuntimeError` instead of substituting a hold decision, and the
session re-raises it: the error propagates to the caller. -/
theorem c3_process_error_exhaustion_fatal :
    ∀ (digest : String → String) (cache : Cache) (allowed : List String)
      (sys usr : String) (mr ct : Nat) (oracle : Nat → SubprocResult),
      1 ≤ mr → (∀ k, 1 ≤ k → k ≤ mr → processErrorAttempt (oracle k) = true) →
      ((_ainvoke_claude_with_retry digest false cache sys usr mr ct oracle).res
          = .error .runtimeError
        ∧ run_trading_session digest allowed false cache sys usr mr ct oracle true
          = .fatal .runtimeError) := by
  intro digest cache allowed sys usr mr ct oracle hmr hpe
  have h : (_ainvoke_claude_with_retry digest false cache sys usr mr ct oracle).res
      = .error .runtimeError :=
    retryGo_all_procErrors digest sys usr mr oracle hpe mr 1 ct cache 0 []
      (by omega) (by omega) hmr
  refine ⟨h, ?_⟩
  unfold run_trading_session
  rw [if_neg (by decide : ¬((!true : Bool) = true))]
  rw [h]
  rfl

/-- Witness for C3 at two attempts exiting with status 1. -/
theorem c3_witness :
    (_ainvoke_claude_with_retry id false emptyCache "sys" "usr" 2 600
        (fun _ => .completed 1 "boom")).res = .error .runtimeError :=
  (c3_process_error_exhaustion_fatal id emptyCache ["AAPL"] "sys" "usr" 2 600
    (fun _ => .completed 1 "boom") (by omega) (fun _ _ _ => rfl)).1

/-- C1 (amended): a trading session with a successfully gathered context
whose subprocess attempts all time out still completes with exactly the
synthetic hold Decision.  (As stated the claim fails: under total process
-error failure the session raises and yields no Decision — see the
counterexample.) -/
theorem c1_session_decision_under_timeouts :
    ∀ (digest : String → String) (allowed : List String) (cache : Cache)
      (sys usr : String) (mr ct : Nat) (oracle : Nat → SubprocResult),
      1 ≤ mr → (∀ k, oracle k = .timeout) →
      run_trading_session digest allowed false cache sys usr mr ct oracle true
        = .completed timeoutHoldDecision := by
  intro digest allowed cache sys usr mr ct oracle hmr hto
  have h : (_ainvoke_claude_with_retry digest false cache sys usr mr ct oracle).res
      = .ok timeoutHoldEnvelope :=
    retryGo_all_timeouts digest sys usr mr oracle hto mr 1 ct cache 0 [] (by omega) hmr
  unfold run_trading_session
  rw [if_neg (by decide : ¬((!true : Bool) = true))]
  rw [h]
  rfl

/-- Witness for C1 at three timed-out attempts. -/
theorem c1_witness :
    run_trading_session id ["AAPL"] false emptyCache "sys" "usr" 3 600
      (fun _ => .timeout) true = .completed timeoutHoldDecision :=
  c1_session_decision_under_timeouts id ["AAPL"] emptyCache "sys" "usr" 3 600
    (fun _ => .timeout) (by omega) (fun _ => rfl)

/-- Counterexample to C1 as stated: a session whose every attempt is a total
subprocess failure (exit status 1) ends with a raised `RuntimeError` and no
Decision. -/
theorem c1_counterexample :
    run_trading_session id ["AAPL"] false emptyCache "sys" "usr" 3 600
      (fun _ => .completed 1 "boom") true = .fatal .runtimeError := rfl

/-- C4 (amended): when attempt k completes with exit status 0 but stdout
that fails JSON decoding (after k-1 timed-out attempts), the retry
controller immediately returns the json-decode hold envelope with
`is_error = True`, having spawned exactly k subprocesses — no additional
invocation is consumed — and that envelope's result text extracts to the
embedded hold decision.  (As stated the claim fails: JSON-valid stdout that
is not an object raises an uncaught AttributeError instead — see the
counterexample.) -/
theorem c4_malformed_stdout_immediate_hold :
    ∀ (digest : String → String) (cache : Cache) (sys usr : String)
      (mr ct k : Nat) (oracle : Nat → SubprocResult) (s : String)
      (allowed : List String),
      1 ≤ k → k ≤ mr →
      (∀ j, 1 ≤ j → j < k → oracle j = .timeout) →
      oracle k = .completed 0 s → jsonLoads s.data = none →
      ((_ainvoke_claude_with_retry digest false cache sys usr mr ct oracle).res
          = .ok jsonDecodeHoldEnvelope
        ∧ (_ainvoke_claude_with_retry digest false cache sys usr mr ct oracle).spawned = k
        ∧ jsonDecodeHoldEnvelope = .obj [("result", .str jsonDecodeResultText),
            ("is_error", .bool true), ("error_type", .str "json_decode")]
        ∧ _extract_decision allowed jsonDecodeResultText = .ok jsonDecodeHoldDecision) := by
  intro digest cache sys usr mr ct k oracle s allowed hk1 hkmr hpre hork hbad
  have h : (_ainvoke_claude_with_retry digest false cache sys usr mr ct oracle).res
        = .ok jsonDecodeHoldEnvelope
      ∧ (_ainvoke_claude_with_retry digest false cache sys usr mr ct oracle).spawned
        = 0 + (k - 1 + 1) :=
    retryGo_malformed digest sys usr mr oracle k s hpre hork hbad mr 1 ct cache 0 []
      (by omega) (by omega) hk1 hkmr
  refine ⟨h.1, ?_, rfl, extract_jsonDecode_text allowed⟩
  rw [h.2]
  omega

/-- Witness for C4 at an unparseable first stdout. -/
theorem c4_witness :
    (_ainvoke_claude_with_retry id false emptyCache "sys" "usr" 3 600
        (fun _ => .completed 0 "not json")).res = .ok jsonDecodeHoldEnvelope :=
  (c4_malformed_stdout_immediate_hold id emptyCache "sys" "usr" 3 600 1
    (fun _ => .completed 0 "not json") "not json" ["AAPL"] (by omega) (by omega)
    (fun _ hj1 hj2 => absurd (lt_of_le_of_lt hj1 hj2) (lt_irrefl 1)) rfl rfl).1

/-- Counterexample to C4 as stated: stdout "[1, 2, 3]" is valid JSON but not
the expected envelope; `response.get('is_error')` raises AttributeError,
which no handler catches — the controller throws past the invocation
boundary instead of returning the hold envelope. -/
theorem c4_counterexample :
    (_ainvoke_claude_with_retry id false emptyCache "sys" "usr" 3 600
        (fun _ => .completed 0 "[1, 2, 3]")).res = .error .otherError
      ∧ (_ainvoke_claude_with_retry id false emptyCache "sys" "usr" 3 600
          (fun _ => .completed 0 "[1, 2, 3]")).res ≠ .ok jsonDecodeHoldEnvelope := by
  refine ⟨rfl, fun hcontra => ?_⟩
  rw [show (_ainvoke_claude_with_retry id false emptyCache "sys" "usr" 3 600
      (fun _ => .completed 0 "[1, 2, 3]")).res = .error .otherError from rfl] at hcontra
  exact Except.noConfusion hcontra

/-- C5 (amended): for every oracle the number of spawned attempts never
exceeds maxRetries, and whenever the initial timeout is at least 120 the
per-attempt timeout sequence is non-increasing and never below 120 (each
timed-out attempt halves it with a floor of 120).  (As stated the claim
fails for initial timeouts below 120: the first halving raises the timeout
to the floor — see the counterexample.) -/
theorem c5_retry_attempt_and_timeout_bounds :
    ∀ (digest : String → String) (useCache : Bool) (cache : Cache)
      (sys usr : String) (mr ct : Nat) (oracle : Nat → SubprocResult),
      (_ainvoke_claude_with_retry digest useCache cache sys usr mr ct oracle).spawned ≤ mr
      ∧ ((_ainvoke_claude_with_retry digest useCache cache sys usr mr ct oracle).timeouts).length
          ≤ mr
      ∧ (120 ≤ ct →
          (∀ t ∈ (_ainvoke_claude_with_retry digest useCache cache sys usr mr ct
              oracle).timeouts, 120 ≤ t)
          ∧ ((_ainvoke_claude_with_retry digest useCache cache sys usr mr ct
              oracle).timeouts).Pairwise (fun a b => b ≤ a)) := by
  intro digest useCache cache sys usr mr ct oracle
  have hc : (_ainvoke_claude_with_retry digest useCache cache sys usr mr ct oracle).spawned
        ≤ 0 + mr
      ∧ ((_ainvoke_claude_with_retry digest useCache cache sys usr mr ct
          oracle).timeouts).length ≤ List.length [] + mr :=
    retryGo_counts digest useCache sys usr mr oracle mr 1 ct cache 0 []
  refine ⟨by simpa using hc.1, by simpa using hc.2, ?_⟩
  intro h120
  exact retryGo_trace_mono digest useCache sys usr mr oracle mr 1 ct cache 0 [] h120
    (by simp) (by simp) List.Pairwise.nil

/-- Witness for C5 at initial timeout 600 and three timed-out attempts. -/
theorem c5_witness :
    (∀ t ∈ (_ainvoke_claude_with_retry id false emptyCache "sys" "usr" 3 600
        (fun _ => .timeout)).timeouts, 120 ≤ t)
      ∧ ((_ainvoke_claude_with_retry id false emptyCache "sys" "usr" 3 600
          (fun _ => .timeout)).timeouts).Pairwise (fun a b => b ≤ a) :=
  (c5_retry_attempt_and_timeout_bounds id false emptyCache "sys" "usr" 3 600
    (fun _ => .timeout)).2.2 (by omega)

/-- Counterexample to C5 as stated: with initial timeout 60 and two
timed-out attempts the per-attempt timeout sequence is [60, 120] —
strictly increasing, with the first attempt below 120. -/
theorem c5_counterexample :
    (_ainvoke_claude_with_retry id false emptyCache "sys" "usr" 2 60
        (fun _ => .timeout)).timeouts = [60, 120]
      ∧ ¬ ((_ainvoke_claude_with_retry id false emptyCache "sys" "usr" 2 60
          (fun _ => .timeout)).timeouts).Pairwise (fun a b => b ≤ a) := by
  refine ⟨rfl, fun hp => ?_⟩
  rw [show (_ainvoke_claude_with_retry id false emptyCache "sys" "usr" 2 60
      (fun _ => .timeout)).timeouts = [60, 120] from rfl] at hp
  have h60 := (List.pairwise_cons.1 hp).1 120 (by simp)
  omega

/-- C8: with caching enabled, invoking on a pair whose cache key is stored
returns the stored envelope: the invocation manager spawns no subprocess and
leaves the cache unchanged, and the retry controller returns the stored
value having spawned zero subprocesses, with the cache still unchanged. -/
theorem c8_cache_hit_no_subprocess :
    ∀ (digest : String → String) (cache : Cache) (sys usr : String) (v : Json)
      (sub : SubprocResult) (mr ct : Nat) (oracle : Nat → SubprocResult),
      cache (_get_cache_key digest usr sys) = some v →
      (_invoke_claude_cli digest true cache usr sys sub
          = ⟨.ok v, false, cache⟩
        ∧ (1 ≤ mr →
            (_ainvoke_claude_with_retry digest true cache sys usr mr ct oracle).res = .ok v
            ∧ (_ainvoke_claude_with_retry digest true cache sys usr mr ct oracle).spawned = 0
            ∧ (_ainvoke_claude_with_retry digest true cache sys usr mr ct oracle).cache
              = cache)) := by
  intro digest cache sys usr v sub mr ct oracle hhit
  have hinv : ∀ sub2, _invoke_claude_cli digest true cache usr sys sub2
      = ⟨.ok v, false, cache⟩ := by
    intro sub2
    unfold _invoke_claude_cli
    rw [hhit]
  refine ⟨hinv sub, ?_⟩
  intro hmr
  obtain ⟨m, rfl⟩ : ∃ m, mr = m + 1 := ⟨mr - 1, by omega⟩
  refine ⟨?_, ?_, ?_⟩ <;> simp [_ainvoke_claude_with_retry, retryGo, hinv]

/-- Witness for C8 at a concrete one-entry cache. -/
theorem c8_witness :
    _invoke_claude_cli id true (cacheInsert emptyCache "sys\nusr" (.str "stored"))
        "usr" "sys" .timeout
      = ⟨.ok (.str "stored"), false,
         cacheInsert emptyCache "sys\nusr" (.str "stored")⟩ :=
  (c8_cache_hit_no_subprocess id (cacheInsert emptyCache "sys\nusr" (.str "stored"))
    "sys" "usr" (.str "stored") .timeout 3 600 (fun _ => .timeout) rfl).1

/-- C6 (amended): extraction applies the strategies in fixed order — tagged
block, then fenced ```json block, then left-to-right loose scan — returning
the first strategy's valid candidate; when a valid tagged and a valid
fenced candidate are both present the tagged one is returned; when no
strategy yields a valid decision (and no candidate makes validation raise),
the default hold decision with the could-not-parse reasoning is returned.
(As stated the claim fails: a candidate whose validation raises TypeError
propagates out of extraction instead of yielding the default — see the
counterexample.) -/
theorem c6_extraction_priority_order :
    (∀ (allowed : List String) (text : String) (d : Dict),
        strategyTagged allowed text = .ok (some d) →
        _extract_decision allowed text = .ok d)
    ∧ (∀ (allowed : List String) (text : String) (d : Dict),
        strategyTagged allowed text = .ok none →
        strategyFenced allowed text = .ok (some d) →
        _extract_decision allowed text = .ok d)
    ∧ (∀ (allowed : List String) (text : String) (d : Dict),
        strategyTagged allowed text = .ok none →
        strategyFenced allowed text = .ok none →
        strategyLoose allowed text = .ok (some d) →
        _extract_decision allowed text = .ok d)
    ∧ (∀ (allowed : List String) (text : String),
        strategyTagged allowed text = .ok none →
        strategyFenced allowed text = .ok none →
        strategyLoose allowed text = .ok none →
        _extract_decision allowed text = .ok defaultHoldDecision)
    ∧ _extract_decision ["AAPL", "MSFT"] multiCandidateText = .ok taggedBuyDecision
    ∧ strategyFenced ["AAPL", "MSFT"] multiCandidateText
        = .ok (some [("action", .str "sell"), ("symbol", .str "MSFT"),
            ("amount", .num 3), ("confidence", .num (mkRat 8 10)),
            ("reasoning", .str "f")]) := by
  refine ⟨?_, ?_, ?_, ?_, rfl, rfl⟩
  · intro allowed text d h1
    unfold _extract_decision
    rw [h1]
  · intro allowed text d h1 h2
    unfold _extract_decision
    rw [h1, h2]
  · intro allowed text d h1 h2 h3
    unfold _extract_decision
    rw [h1, h2, h3]
  · intro allowed text h1 h2 h3
    unfold _extract_decision
    rw [h1, h2, h3]

/-- Witness for C6: a lone tagged hold block is extracted by strategy 1. -/
theorem c6_witness :
    _extract_decision ["AAPL"] simpleTaggedText = .ok simpleHoldDecision :=
  c6_extraction_priority_order.1 ["AAPL"] simpleTaggedText simpleHoldDecision rfl

/-- Counterexample to C6 as stated: the tagged candidate has a valid buy
shape except that its confidence is the string "high"; no strategy yields a
valid decision, yet extraction raises (TypeError at `0.0 <= "high"`) rather
than returning the default hold decision. -/
theorem c6_counterexample :
    _extract_decision ["AAPL"] typeErrTaggedText = .error ()
      ∧ _extract_decision ["AAPL"] typeErrTaggedText ≠ .ok defaultHoldDecision := by
  refine ⟨rfl, fun hcontra => ?_⟩
  rw [show _extract_decision ["AAPL"] typeErrTaggedText = .error () from rfl] at hcontra
  exact Except.noConfusion hcontra
